import Mathlib

/-!
# Verification of the EV telemetry ETL pipeline

A shallow embedding of `evtp/etl.py` and `evtp/generator.py`.

* Telemetry records (`Row`) carry a parseable timestamp, a string `vin`
  and eight numeric channels; numeric values are modelled as exact
  rationals (`ℚ`), the idealisation of the floating-point arithmetic of
  the source.
* `feature_engineer` (lines 52-89 of `etl.py`) is embedded in two layers:
  a value layer (`coerceDtypes`, `sortStep`, `deriveCols`,
  `featureCompute`) and an object layer (`feature_engineer_heap`) that
  makes the `df.copy()` / in-place-mutation structure of the Python code
  explicit so that frame (non-mutation) properties can be stated.
* The generator (`generator.py`) is embedded with an explicit global
  pseudorandom state threaded through every `random.uniform` call.
-/

/-- One validated telemetry record: the ten required columns of
`RAW_COLUMNS_REQUIRED`, with the timestamp already parsed to a
well-ordered point in time (modelled as `ℚ` seconds) and the eight
channels numeric. -/
structure Row where
  timestamp : ℚ
  vin : String
  speed_kmh : ℚ
  soc_pct : ℚ
  battery_temp_c : ℚ
  motor_current_a : ℚ
  inverter_temp_c : ℚ
  ambient_temp_c : ℚ
  tire_wear_pct : ℚ
  brake_wear_pct : ℚ
  deriving DecidableEq, Inhabited

/-- The `(vin, timestamp)` lexicographic order used by
`df.sort_values(["vin","timestamp"])`. -/
def keyLe (a b : Row) : Prop :=
  a.vin < b.vin ∨ (a.vin = b.vin ∧ a.timestamp ≤ b.timestamp)

instance keyLe.instDecidable (a b : Row) : Decidable (keyLe a b) := by
  unfold keyLe; infer_instance

/-- Boolean comparator for the stable multi-column sort. -/
def rowLE (a b : Row) : Bool := decide (keyLe a b)

/-- Line 59 of `etl.py`: `df.sort_values(["vin","timestamp"]).reset_index(drop=True)`.
pandas' multi-column sort is a stable lexicographic sort, which `mergeSort`
with the lexicographic comparator reproduces exactly (stable sorts against
the same key agree). -/
def sortStep (b : List Row) : List Row := b.mergeSort rowLE

/-- The trailing window `rolling(10, min_periods=1)` sees at position `i`
of a column: the up-to-10 most recent values, positions `i+1-10` to `i`. -/
def window10 (l : List ℚ) (i : Nat) : List ℚ := (l.take (i+1)).drop (i+1-10)

/-- `rolling(10, min_periods=1).mean()` at position `i` of a column. -/
def rollMean10 (l : List ℚ) (i : Nat) : ℚ :=
  (window10 l i).sum / ((window10 l i).length : ℚ)

/-- The sample variance (`ddof=1`, pandas' default for `rolling(...).std()`)
of one window. -/
def sampleVar (w : List ℚ) : ℚ :=
  ((w.map (fun x => (x - w.sum / (w.length : ℚ))^2)).sum) / ((w.length : ℚ) - 1)

/-- pandas `rolling(...).std()` on one window: the sample standard
deviation, which is NaN (here `none`) for a window with fewer than two
elements. -/
noncomputable def stdWindow (w : List ℚ) : Option ℝ :=
  if 2 ≤ w.length then some (Real.sqrt ((sampleVar w : ℚ) : ℝ)) else none

/-- Lines 70-75 of `etl.py`: `rolling(10, min_periods=1).std()` followed by
`.fillna(0.0)`, at position `i` of a column. -/
noncomputable def rollStd10 (l : List ℚ) (i : Nat) : ℝ :=
  (stdWindow (window10 l i)).getD 0

/-- `Series.diff()` at position `i` of one group's column: NaN at the first
position, else the first difference. -/
def diffAt (l : List ℚ) (i : Nat) : Option ℚ :=
  if i = 0 then none else some (l.getD i 0 - l.getD (i-1) 0)

/-- `groupby("vin")[col].diff().fillna(0.0)` at position `i` of one group's
column. -/
def deltaAt (l : List ℚ) (i : Nat) : ℚ := (diffAt l i).getD 0

/-- `df.groupby("vin")[col]`: the column `c` restricted to the rows of one
vin, in row order.  `groupby` preserves the relative order of rows inside
each group. -/
def colOf (s : List Row) (v : String) (c : Row → ℚ) : List ℚ :=
  (s.filter (fun r => r.vin == v)).map c

/-- An engineered record: the base record plus the columns added by
`feature_engineer` (three derived columns for each of the five rolling
channels, a delta for each of the three wear/SOC channels, and the two
stress proxies). -/
structure FeatRow where
  base : Row
  speed_kmh_roll_mean_10 : ℚ
  speed_kmh_roll_std_10 : ℝ
  speed_kmh_delta : ℚ
  battery_temp_c_roll_mean_10 : ℚ
  battery_temp_c_roll_std_10 : ℝ
  battery_temp_c_delta : ℚ
  motor_current_a_roll_mean_10 : ℚ
  motor_current_a_roll_std_10 : ℝ
  motor_current_a_delta : ℚ
  inverter_temp_c_roll_mean_10 : ℚ
  inverter_temp_c_roll_std_10 : ℝ
  inverter_temp_c_delta : ℚ
  ambient_temp_c_roll_mean_10 : ℚ
  ambient_temp_c_roll_std_10 : ℝ
  ambient_temp_c_delta : ℚ
  tire_wear_pct_delta : ℚ
  brake_wear_pct_delta : ℚ
  soc_pct_delta : ℚ
  thermal_stress : ℚ
  power_stress : ℚ
  deriving Inhabited

/-- The row at index `k` of a frame. -/
def rowAt (s : List Row) (k : Nat) : Row := s.getD k default

/-- The position of row `k` inside its own vin group: the number of
earlier rows with the same vin.  This is the position at which the
grouped operators (`rolling`, `diff`) evaluate for row `k`. -/
def posOf (s : List Row) (k : Nat) : Nat :=
  ((s.take k).filter (fun x => x.vin == (rowAt s k).vin)).length

/-- The engineered record of the row at index `k` of the sorted frame `s`.
Each grouped column (`df.groupby("vin")[col].rolling...` / `.diff()`)
assigns to the row at `k` the statistic computed at that row's position
inside its own vin group. -/
noncomputable def mkFeat (s : List Row) (k : Nat) : FeatRow :=
  { base := rowAt s k
  , speed_kmh_roll_mean_10 := rollMean10 (colOf s (rowAt s k).vin Row.speed_kmh) (posOf s k)
  , speed_kmh_roll_std_10 := rollStd10 (colOf s (rowAt s k).vin Row.speed_kmh) (posOf s k)
  , speed_kmh_delta := deltaAt (colOf s (rowAt s k).vin Row.speed_kmh) (posOf s k)
  , battery_temp_c_roll_mean_10 := rollMean10 (colOf s (rowAt s k).vin Row.battery_temp_c) (posOf s k)
  , battery_temp_c_roll_std_10 := rollStd10 (colOf s (rowAt s k).vin Row.battery_temp_c) (posOf s k)
  , battery_temp_c_delta := deltaAt (colOf s (rowAt s k).vin Row.battery_temp_c) (posOf s k)
  , motor_current_a_roll_mean_10 := rollMean10 (colOf s (rowAt s k).vin Row.motor_current_a) (posOf s k)
  , motor_current_a_roll_std_10 := rollStd10 (colOf s (rowAt s k).vin Row.motor_current_a) (posOf s k)
  , motor_current_a_delta := deltaAt (colOf s (rowAt s k).vin Row.motor_current_a) (posOf s k)
  , inverter_temp_c_roll_mean_10 := rollMean10 (colOf s (rowAt s k).vin Row.inverter_temp_c) (posOf s k)
  , inverter_temp_c_roll_std_10 := rollStd10 (colOf s (rowAt s k).vin Row.inverter_temp_c) (posOf s k)
  , inverter_temp_c_delta := deltaAt (colOf s (rowAt s k).vin Row.inverter_temp_c) (posOf s k)
  , ambient_temp_c_roll_mean_10 := rollMean10 (colOf s (rowAt s k).vin Row.ambient_temp_c) (posOf s k)
  , ambient_temp_c_roll_std_10 := rollStd10 (colOf s (rowAt s k).vin Row.ambient_temp_c) (posOf s k)
  , ambient_temp_c_delta := deltaAt (colOf s (rowAt s k).vin Row.ambient_temp_c) (posOf s k)
  , tire_wear_pct_delta := deltaAt (colOf s (rowAt s k).vin Row.tire_wear_pct) (posOf s k)
  , brake_wear_pct_delta := deltaAt (colOf s (rowAt s k).vin Row.brake_wear_pct) (posOf s k)
  , soc_pct_delta := deltaAt (colOf s (rowAt s k).vin Row.soc_pct) (posOf s k)
  , thermal_stress := (rowAt s k).battery_temp_c + (rowAt s k).inverter_temp_c - (rowAt s k).ambient_temp_c
  , power_stress := (rowAt s k).motor_current_a * max (rowAt s k).speed_kmh 1 }

/-- Lines 61-87 of `etl.py`: the column-adding loop applied to the
already-sorted frame `s`; one engineered record per row of `s`. -/
noncomputable def deriveCols (s : List Row) : List FeatRow :=
  (List.range s.length).map (mkFeat s)

/-- The value-level core of `feature_engineer` on a validated (typed)
batch: sort by `(vin, timestamp)`, then add the derived columns.  (Dtype
coercion on an already-validated batch does not change any value; it is
modelled at the raw level by `coerceDtypes` below.) -/
noncomputable def featureCompute (b : List Row) : List FeatRow :=
  deriveCols (sortStep b)

/-- The time-ordered subsequence of the engineered output that belongs to
one entity. -/
def entityRows (v : String) (out : List FeatRow) : List FeatRow :=
  out.filter (fun fr => fr.base.vin == v)

/-- The engineered record at position `i` of one entity's subsequence. -/
noncomputable def featAt (b : List Row) (v : String) (i : Nat) : FeatRow :=
  (entityRows v (featureCompute b)).getD i default

/-- Channel `c`'s values along one entity's subsequence of the output. -/
noncomputable def entityCol (b : List Row) (v : String) (c : Row → ℚ) : List ℚ :=
  (entityRows v (featureCompute b)).map (fun fr => c fr.base)

/-- The window of positions `max (0, i-9) .. i` of a value sequence, as
the specification describes it (independent of how the pipeline slices
its trailing windows). -/
def windowSpec (vals : List ℚ) (i : Nat) : List ℚ :=
  ((List.range (i+1)).drop (i-9)).map (fun j => vals.getD j 0)

/-- The arithmetic mean over the specification's window. -/
def specMean (vals : List ℚ) (i : Nat) : ℚ :=
  (windowSpec vals i).sum / ((windowSpec vals i).length : ℚ)

/-- The pair of row counts returned by `ETLPipeline.run` (line 131):
raw row count and engineered row count.  Persistence is effect-only and
does not touch the rows. -/
noncomputable def runCounts (b : List Row) : Nat × Nat :=
  (b.length, (featureCompute b).length)

/-! ## Basic lemmas about the sort comparator and the pipeline shape -/

theorem rowLE_trans (a b c : Row) (hab : rowLE a b = true) (hbc : rowLE b c = true) :
    rowLE a c = true := by
  simp only [rowLE, decide_eq_true_eq, keyLe] at hab hbc ⊢
  rcases hab with h1 | ⟨e1, t1⟩
  · rcases hbc with h2 | ⟨e2, t2⟩
    · exact Or.inl (lt_trans h1 h2)
    · exact Or.inl (e2 ▸ h1)
  · rcases hbc with h2 | ⟨e2, t2⟩
    · exact Or.inl (e1 ▸ h2)
    · exact Or.inr ⟨e1.trans e2, t1.trans t2⟩

theorem rowLE_total (a b : Row) : (rowLE a b || rowLE b a) = true := by
  simp only [rowLE, Bool.or_eq_true, decide_eq_true_eq, keyLe]
  rcases lt_trichotomy a.vin b.vin with h | h | h
  · exact Or.inl (Or.inl h)
  · rcases le_total a.timestamp b.timestamp with ht | ht
    · exact Or.inl (Or.inr ⟨h, ht⟩)
    · exact Or.inr (Or.inr ⟨h.symm, ht⟩)
  · exact Or.inr (Or.inl h)

theorem length_sortStep (b : List Row) : (sortStep b).length = b.length := by
  simp [sortStep]

theorem length_deriveCols (s : List Row) : (deriveCols s).length = s.length := by
  simp [deriveCols]

theorem length_featureCompute (b : List Row) : (featureCompute b).length = b.length := by
  simp [featureCompute, length_deriveCols, length_sortStep]

theorem mkFeat_base (s : List Row) (k : Nat) : (mkFeat s k).base = s.getD k default := rfl

theorem map_base_deriveCols (s : List Row) : (deriveCols s).map FeatRow.base = s := by
  apply List.ext_getElem
  · simp [length_deriveCols]
  · intro n h1 h2
    simp only [List.getElem_map, deriveCols, List.getElem_range, mkFeat_base]
    rw [List.getD_eq_getElem?_getD, List.getElem?_eq_getElem h2, Option.getD_some]

theorem featureCompute_map_base (b : List Row) :
    (featureCompute b).map FeatRow.base = sortStep b :=
  map_base_deriveCols (sortStep b)

theorem featureCompute_getElem (b : List Row) (k : Nat)
    (h : k < (featureCompute b).length) :
    (featureCompute b)[k] = mkFeat (sortStep b) k := by
  have hk : k < (sortStep b).length := by
    rw [length_sortStep, ← length_featureCompute b]; exact h
  simp only [featureCompute, deriveCols]
  rw [List.getElem_map]
  congr 1
  exact List.getElem_range k _

/-- If `i` indexes the filtered list, there is an index `k` into the
original list holding the same element, such that exactly `i` earlier
elements satisfy the predicate. -/
theorem filter_index {α : Type} (p : α → Bool) :
    ∀ (l : List α) (i : Nat) (h : i < (l.filter p).length),
      ∃ k, ∃ hk : k < l.length,
        (l.filter p)[i] = l[k] ∧ (((l.take k).filter p).length = i) ∧ p (l[k]) = true := by
  intro l
  induction l with
  | nil => intro i h; simp at h
  | cons a l ih =>
    intro i h
    by_cases hpa : p a
    · cases i with
      | zero =>
        refine ⟨0, by simp, ?_, by simp, by simpa using hpa⟩
        simp [List.filter_cons_of_pos hpa]
      | succ j =>
        have h' : j < (l.filter p).length := by
          have := h; rw [List.filter_cons_of_pos hpa] at this
          simpa using this
        obtain ⟨k, hk, e1, e2, e3⟩ := ih j h'
        refine ⟨k+1, by simpa using Nat.succ_lt_succ hk, ?_, ?_, by simpa using e3⟩
        · simpa [List.filter_cons_of_pos hpa] using e1
        · simp [List.filter_cons_of_pos hpa, e2]
    · have h' : i < (l.filter p).length := by
        have := h; rw [List.filter_cons_of_neg hpa] at this; exact this
      obtain ⟨k, hk, e1, e2, e3⟩ := ih i h'
      refine ⟨k+1, by simpa using Nat.succ_lt_succ hk, ?_, ?_, by simpa using e3⟩
      · simpa [List.filter_cons_of_neg hpa] using e1
      · simp [List.filter_cons_of_neg hpa, e2]

/-! ## The trailing window of the pipeline equals the window of the spec -/

theorem getD_eq_getElem {α : Type} [Inhabited α] (l : List α) (n : Nat) (d : α)
    (h : n < l.length) : l.getD n d = l[n] := by
  rw [List.getD_eq_getElem?_getD, List.getElem?_eq_getElem h, Option.getD_some]

theorem window10_eq_windowSpec (l : List ℚ) (i : Nat) (h : i < l.length) :
    window10 l i = windowSpec l i := by
  apply List.ext_getElem
  · simp only [window10, windowSpec, List.length_drop, List.length_take,
      List.length_map, List.length_range]
    omega
  · intro n h1 h2
    have hlen : n < (l.take (i+1)).length - (i+1-10) := by
      simpa [window10] using h1
    have hn : i + 1 - 10 + n < (l.take (i+1)).length := by
      simp only [List.length_take] at hlen ⊢; omega
    have hr : n < ((List.range (i+1)).drop (i-9)).length := by
      simpa [windowSpec] using h2
    simp only [window10, windowSpec, List.getElem_drop, List.getElem_take,
      List.getElem_map, List.getElem_range]
    have hb : i - 9 + n < l.length := by
      simp only [List.length_drop, List.length_range] at hr
      simp only [List.length_take] at hn
      omega
    rw [getD_eq_getElem _ _ _ hb]
    have hidx : i + 1 - 10 + n = i - 9 + n := by omega
    simp only [hidx]

theorem rollMean10_spec (l : List ℚ) (i : Nat) (h : i < l.length) :
    rollMean10 l i = specMean l i := by
  unfold rollMean10 specMean
  rw [window10_eq_windowSpec l i h]

/-! ## Relating the engineered output's entity subsequences to the sorted frame -/

theorem entityRows_map_base (b : List Row) (v : String) :
    (entityRows v (featureCompute b)).map FeatRow.base
      = (sortStep b).filter (fun r => r.vin == v) := by
  unfold entityRows
  have hpred : (fun fr : FeatRow => fr.base.vin == v)
      = ((fun r : Row => r.vin == v) ∘ FeatRow.base) := rfl
  rw [hpred, ← List.filter_map, featureCompute_map_base]

theorem length_entityRows (b : List Row) (v : String) :
    (entityRows v (featureCompute b)).length
      = ((sortStep b).filter (fun r => r.vin == v)).length := by
  rw [← entityRows_map_base, List.length_map]

theorem take_filter_length (b : List Row) (v : String) (k : Nat) :
    (((featureCompute b).take k).filter (fun fr => fr.base.vin == v)).length
      = (((sortStep b).take k).filter (fun r => r.vin == v)).length := by
  have h1 : ((featureCompute b).take k).map FeatRow.base = (sortStep b).take k := by
    rw [List.map_take, featureCompute_map_base]
  have hpred : (fun fr : FeatRow => fr.base.vin == v)
      = ((fun r : Row => r.vin == v) ∘ FeatRow.base) := rfl
  rw [hpred, ← h1, ← List.length_map (f := FeatRow.base), List.filter_map, List.length_map]

theorem colOf_entityCol (b : List Row) (v : String) (c : Row → ℚ) :
    colOf (sortStep b) v c = entityCol b v c := by
  unfold colOf entityCol
  rw [← entityRows_map_base, List.map_map]
  rfl

/-- Position `i` of one entity's engineered subsequence is the row of the
sorted frame at some index `k` whose vin is `v` and which is preceded by
exactly `i` rows of the same vin. -/
theorem entityRows_spec (b : List Row) (v : String) (i : Nat)
    (h : i < (entityRows v (featureCompute b)).length) :
    ∃ k, ∃ hk : k < (sortStep b).length,
      featAt b v i = mkFeat (sortStep b) k ∧
      ((sortStep b).getD k default).vin = v ∧
      (((sortStep b).take k).filter (fun x => x.vin == v)).length = i := by
  have h' : i < ((featureCompute b).filter (fun fr => fr.base.vin == v)).length := h
  obtain ⟨k, hk, e1, e2, e3⟩ :=
    filter_index (fun fr => fr.base.vin == v) (featureCompute b) i h'
  have hk' : k < (sortStep b).length := by
    rw [length_sortStep, ← length_featureCompute b]; exact hk
  refine ⟨k, hk', ?_, ?_, ?_⟩
  · have : featAt b v i = (entityRows v (featureCompute b))[i] := by
      unfold featAt
      exact getD_eq_getElem _ _ _ h
    rw [this]
    show (List.filter _ (featureCompute b))[i] = _
    rw [e1, featureCompute_getElem b k hk]
  · have hb : (featureCompute b)[k].base = (sortStep b).getD k default := by
      rw [featureCompute_getElem b k hk, mkFeat_base]
    rw [← hb]
    simpa using e3
  · rw [← take_filter_length b v k]
    exact e2

/-! ## Generic per-channel field lemmas -/

theorem length_entityCol (b : List Row) (v : String) (c : Row → ℚ) :
    (entityCol b v c).length = (entityRows v (featureCompute b)).length := by
  simp [entityCol]

theorem entityCol_getD (b : List Row) (v : String) (c : Row → ℚ) (i : Nat)
    (h : i < (entityRows v (featureCompute b)).length) :
    (entityCol b v c).getD i 0 = c (featAt b v i).base := by
  unfold entityCol featAt
  rw [getD_eq_getElem _ _ _ (by simpa using h), List.getElem_map,
    getD_eq_getElem _ _ _ h]

/-- Any engineered field that is computed as `F` of the row's vin-group
column at the row's group position equals, on one entity's subsequence,
`F` of that subsequence's own column at the subsequence position. -/
theorem featAt_general {α : Type} (b : List Row) (v : String) (i : Nat)
    (h : i < (entityRows v (featureCompute b)).length)
    (G : FeatRow → α) (c : Row → ℚ) (F : List ℚ → Nat → α)
    (hG : ∀ s k, G (mkFeat s k) = F (colOf s (rowAt s k).vin c) (posOf s k)) :
    G (featAt b v i) = F (entityCol b v c) i := by
  obtain ⟨k, hk, e1, e2, e3⟩ := entityRows_spec b v i h
  have hv : (rowAt (sortStep b) k).vin = v := e2
  have hp : posOf (sortStep b) k = i := by
    unfold posOf; rw [hv]; exact e3
  rw [e1, hG, hv, hp, colOf_entityCol]

theorem featAt_mean (b : List Row) (v : String) (i : Nat)
    (h : i < (entityRows v (featureCompute b)).length)
    (G : FeatRow → ℚ) (c : Row → ℚ)
    (hG : ∀ s k, G (mkFeat s k) = rollMean10 (colOf s (rowAt s k).vin c) (posOf s k)) :
    G (featAt b v i) = specMean (entityCol b v c) i := by
  rw [featAt_general b v i h G c rollMean10 hG]
  exact rollMean10_spec _ i (by rw [length_entityCol]; exact h)

/-- The arithmetic mean over a window of one element is that element. -/
theorem specMean_zero (vals : List ℚ) : specMean vals 0 = vals.getD 0 0 := by
  simp [specMean, windowSpec, List.range_succ]

theorem featAt_mean_zero (b : List Row) (v : String)
    (h : 0 < (entityRows v (featureCompute b)).length)
    (G : FeatRow → ℚ) (c : Row → ℚ)
    (hG : ∀ s k, G (mkFeat s k) = rollMean10 (colOf s (rowAt s k).vin c) (posOf s k)) :
    G (featAt b v 0) = c (featAt b v 0).base := by
  rw [featAt_mean b v 0 h G c hG, specMean_zero, entityCol_getD b v c 0 h]

theorem featAt_delta (b : List Row) (v : String) (i : Nat)
    (h : i < (entityRows v (featureCompute b)).length)
    (G : FeatRow → ℚ) (c : Row → ℚ)
    (hG : ∀ s k, G (mkFeat s k) = deltaAt (colOf s (rowAt s k).vin c) (posOf s k)) :
    G (featAt b v i) =
      if i = 0 then 0 else c (featAt b v i).base - c (featAt b v (i-1)).base := by
  rw [featAt_general b v i h G c deltaAt hG]
  unfold deltaAt diffAt
  by_cases h0 : i = 0
  · simp [h0]
  · rw [if_neg h0, if_neg h0, Option.getD_some,
      entityCol_getD b v c i h, entityCol_getD b v c (i-1) (by omega)]

/-! ## Claim C2: rolling means -/

/-- C2: for every validated batch, every entity, each of the five
rolling-eligible channels, and every position `i` in that entity's
time-ordered subsequence, the rolling-mean column at `i` equals the
arithmetic mean of that channel's values at positions
`[max (0, i-9), i]` inclusive of the same entity (trailing window of up
to 10 samples, min periods 1); in particular at `i = 0` the rolling mean
equals the raw value. -/
theorem rolling_mean_matches_window (b : List Row) (v : String) (i : Nat)
    (h : i < (entityRows v (featureCompute b)).length) :
    ((featAt b v i).speed_kmh_roll_mean_10 = specMean (entityCol b v Row.speed_kmh) i ∧
     (featAt b v i).battery_temp_c_roll_mean_10 = specMean (entityCol b v Row.battery_temp_c) i ∧
     (featAt b v i).motor_current_a_roll_mean_10 = specMean (entityCol b v Row.motor_current_a) i ∧
     (featAt b v i).inverter_temp_c_roll_mean_10 = specMean (entityCol b v Row.inverter_temp_c) i ∧
     (featAt b v i).ambient_temp_c_roll_mean_10 = specMean (entityCol b v Row.ambient_temp_c) i) ∧
    (i = 0 →
     (featAt b v i).speed_kmh_roll_mean_10 = (featAt b v i).base.speed_kmh ∧
     (featAt b v i).battery_temp_c_roll_mean_10 = (featAt b v i).base.battery_temp_c ∧
     (featAt b v i).motor_current_a_roll_mean_10 = (featAt b v i).base.motor_current_a ∧
     (featAt b v i).inverter_temp_c_roll_mean_10 = (featAt b v i).base.inverter_temp_c ∧
     (featAt b v i).ambient_temp_c_roll_mean_10 = (featAt b v i).base.ambient_temp_c) := by
  constructor
  · exact ⟨featAt_mean b v i h _ _ (fun s k => rfl),
      featAt_mean b v i h _ _ (fun s k => rfl),
      featAt_mean b v i h _ _ (fun s k => rfl),
      featAt_mean b v i h _ _ (fun s k => rfl),
      featAt_mean b v i h _ _ (fun s k => rfl)⟩
  · intro h0
    subst h0
    exact ⟨featAt_mean_zero b v h _ _ (fun s k => rfl),
      featAt_mean_zero b v h _ _ (fun s k => rfl),
      featAt_mean_zero b v h _ _ (fun s k => rfl),
      featAt_mean_zero b v h _ _ (fun s k => rfl),
      featAt_mean_zero b v h _ _ (fun s k => rfl)⟩

/-- The sort permutes the batch, so an entity's subsequence of the
output has as many rows as that entity had in the input.  (This gives a
witness-checkable form of the index hypotheses, since `mergeSort` is
defined by well-founded recursion and does not reduce definitionally.) -/
theorem length_entityRows_input (b : List Row) (v : String) :
    (entityRows v (featureCompute b)).length
      = (b.filter (fun r => r.vin == v)).length := by
  rw [length_entityRows]
  exact (List.Perm.filter _ (List.mergeSort_perm b rowLE)).length_eq

/-- A small concrete batch (deliberately out of order, two entities)
used to witness the rolling/delta theorems. -/
def wbatch : List Row :=
  [ { timestamp := 1, vin := "A", speed_kmh := 12, soc_pct := 89, battery_temp_c := 26
    , motor_current_a := 101, inverter_temp_c := 21, ambient_temp_c := 20
    , tire_wear_pct := 99, brake_wear_pct := 98 }
  , { timestamp := 0, vin := "B", speed_kmh := 5, soc_pct := 80, battery_temp_c := 24
    , motor_current_a := 99, inverter_temp_c := 19, ambient_temp_c := 18
    , tire_wear_pct := 97, brake_wear_pct := 96 }
  , { timestamp := 0, vin := "A", speed_kmh := 10, soc_pct := 90, battery_temp_c := 25
    , motor_current_a := 100, inverter_temp_c := 20, ambient_temp_c := 20
    , tire_wear_pct := 99, brake_wear_pct := 98 } ]

/-- Witness for C2 at the concrete batch, entity "A", position 1. -/
theorem rolling_mean_matches_window_witness :
    1 < (entityRows "A" (featureCompute wbatch)).length ∧
    ((featAt wbatch "A" 1).speed_kmh_roll_mean_10 = specMean (entityCol wbatch "A" Row.speed_kmh) 1 ∧
     (featAt wbatch "A" 1).battery_temp_c_roll_mean_10 = specMean (entityCol wbatch "A" Row.battery_temp_c) 1 ∧
     (featAt wbatch "A" 1).motor_current_a_roll_mean_10 = specMean (entityCol wbatch "A" Row.motor_current_a) 1 ∧
     (featAt wbatch "A" 1).inverter_temp_c_roll_mean_10 = specMean (entityCol wbatch "A" Row.inverter_temp_c) 1 ∧
     (featAt wbatch "A" 1).ambient_temp_c_roll_mean_10 = specMean (entityCol wbatch "A" Row.ambient_temp_c) 1) :=
  ⟨by rw [length_entityRows_input]; decide,
   (rolling_mean_matches_window wbatch "A" 1 (by rw [length_entityRows_input]; decide)).1⟩

/-! ## Claim C4: first differences -/

/-- C4: for every validated batch, every entity, and each delta-bearing
channel (the five rolling channels plus the wear/SOC channels), the
delta column at position `i` of the entity's time-ordered subsequence is
`value[i] - value[i-1]` for `i > 0` and exactly `0` at `i = 0`; both
values are taken from the same entity's subsequence, so deltas never
cross entity boundaries. -/
theorem delta_matches_diff (b : List Row) (v : String) (i : Nat)
    (h : i < (entityRows v (featureCompute b)).length) :
    (featAt b v i).speed_kmh_delta =
      (if i = 0 then 0 else (featAt b v i).base.speed_kmh - (featAt b v (i-1)).base.speed_kmh) ∧
    (featAt b v i).battery_temp_c_delta =
      (if i = 0 then 0 else (featAt b v i).base.battery_temp_c - (featAt b v (i-1)).base.battery_temp_c) ∧
    (featAt b v i).motor_current_a_delta =
      (if i = 0 then 0 else (featAt b v i).base.motor_current_a - (featAt b v (i-1)).base.motor_current_a) ∧
    (featAt b v i).inverter_temp_c_delta =
      (if i = 0 then 0 else (featAt b v i).base.inverter_temp_c - (featAt b v (i-1)).base.inverter_temp_c) ∧
    (featAt b v i).ambient_temp_c_delta =
      (if i = 0 then 0 else (featAt b v i).base.ambient_temp_c - (featAt b v (i-1)).base.ambient_temp_c) ∧
    (featAt b v i).tire_wear_pct_delta =
      (if i = 0 then 0 else (featAt b v i).base.tire_wear_pct - (featAt b v (i-1)).base.tire_wear_pct) ∧
    (featAt b v i).brake_wear_pct_delta =
      (if i = 0 then 0 else (featAt b v i).base.brake_wear_pct - (featAt b v (i-1)).base.brake_wear_pct) ∧
    (featAt b v i).soc_pct_delta =
      (if i = 0 then 0 else (featAt b v i).base.soc_pct - (featAt b v (i-1)).base.soc_pct) :=
  ⟨featAt_delta b v i h _ _ (fun s k => rfl),
   featAt_delta b v i h _ _ (fun s k => rfl),
   featAt_delta b v i h _ _ (fun s k => rfl),
   featAt_delta b v i h _ _ (fun s k => rfl),
   featAt_delta b v i h _ _ (fun s k => rfl),
   featAt_delta b v i h _ _ (fun s k => rfl),
   featAt_delta b v i h _ _ (fun s k => rfl),
   featAt_delta b v i h _ _ (fun s k => rfl)⟩

/-- Witness for C4 at the concrete batch, entity "A", position 0
(the first observation: all deltas are 0). -/
theorem delta_matches_diff_witness :
    0 < (entityRows "A" (featureCompute wbatch)).length ∧
    (featAt wbatch "A" 0).speed_kmh_delta =
      (if 0 = 0 then 0 else (featAt wbatch "A" 0).base.speed_kmh - (featAt wbatch "A" (0-1)).base.speed_kmh) :=
  ⟨by rw [length_entityRows_input]; decide,
   (delta_matches_diff wbatch "A" 0 (by rw [length_entityRows_input]; decide)).1⟩

/-! ## Claim C3: rolling standard deviations -/

theorem rollStd10_spec (l : List ℚ) (i : Nat) (h : i < l.length) :
    (2 ≤ (windowSpec l i).length →
      rollStd10 l i = Real.sqrt ((sampleVar (windowSpec l i) : ℚ) : ℝ)) ∧
    (i = 0 → rollStd10 l i = 0) := by
  unfold rollStd10 stdWindow
  rw [window10_eq_windowSpec l i h]
  constructor
  · intro h2
    rw [if_pos h2, Option.getD_some]
  · intro h0
    subst h0
    have hlen : (windowSpec l 0).length = 1 := by simp [windowSpec]
    rw [if_neg (by omega), Option.getD_none]

theorem featAt_std (b : List Row) (v : String) (i : Nat)
    (h : i < (entityRows v (featureCompute b)).length)
    (G : FeatRow → ℝ) (c : Row → ℚ)
    (hG : ∀ s k, G (mkFeat s k) = rollStd10 (colOf s (rowAt s k).vin c) (posOf s k)) :
    (2 ≤ (windowSpec (entityCol b v c) i).length →
      G (featAt b v i) = Real.sqrt ((sampleVar (windowSpec (entityCol b v c) i) : ℚ) : ℝ)) ∧
    (i = 0 → G (featAt b v i) = 0) := by
  have e := featAt_general b v i h G c rollStd10 hG
  have sp := rollStd10_spec (entityCol b v c) i (by rw [length_entityCol]; exact h)
  exact ⟨fun h2 => by rw [e]; exact sp.1 h2, fun h0 => by rw [e]; exact sp.2 h0⟩

/-- C3: for every validated batch, every entity and each of the five
rolling channels, the rolling-std column at position `i` of the entity's
time-ordered subsequence equals the sample standard deviation
(divisor `n-1`) of the trailing window when that window has at least two
elements, and equals exactly `0` at the entity's first position (the
size-one window whose sample standard deviation is undefined and is
patched to `0` by `fillna`). -/
theorem rolling_std_matches_window (b : List Row) (v : String) (i : Nat)
    (h : i < (entityRows v (featureCompute b)).length) :
    ((2 ≤ (windowSpec (entityCol b v Row.speed_kmh) i).length →
       (featAt b v i).speed_kmh_roll_std_10
         = Real.sqrt ((sampleVar (windowSpec (entityCol b v Row.speed_kmh) i) : ℚ) : ℝ)) ∧
     (i = 0 → (featAt b v i).speed_kmh_roll_std_10 = 0)) ∧
    ((2 ≤ (windowSpec (entityCol b v Row.battery_temp_c) i).length →
       (featAt b v i).battery_temp_c_roll_std_10
         = Real.sqrt ((sampleVar (windowSpec (entityCol b v Row.battery_temp_c) i) : ℚ) : ℝ)) ∧
     (i = 0 → (featAt b v i).battery_temp_c_roll_std_10 = 0)) ∧
    ((2 ≤ (windowSpec (entityCol b v Row.motor_current_a) i).length →
       (featAt b v i).motor_current_a_roll_std_10
         = Real.sqrt ((sampleVar (windowSpec (entityCol b v Row.motor_current_a) i) : ℚ) : ℝ)) ∧
     (i = 0 → (featAt b v i).motor_current_a_roll_std_10 = 0)) ∧
    ((2 ≤ (windowSpec (entityCol b v Row.inverter_temp_c) i).length →
       (featAt b v i).inverter_temp_c_roll_std_10
         = Real.sqrt ((sampleVar (windowSpec (entityCol b v Row.inverter_temp_c) i) : ℚ) : ℝ)) ∧
     (i = 0 → (featAt b v i).inverter_temp_c_roll_std_10 = 0)) ∧
    ((2 ≤ (windowSpec (entityCol b v Row.ambient_temp_c) i).length →
       (featAt b v i).ambient_temp_c_roll_std_10
         = Real.sqrt ((sampleVar (windowSpec (entityCol b v Row.ambient_temp_c) i) : ℚ) : ℝ)) ∧
     (i = 0 → (featAt b v i).ambient_temp_c_roll_std_10 = 0)) :=
  ⟨featAt_std b v i h _ _ (fun s k => rfl),
   featAt_std b v i h _ _ (fun s k => rfl),
   featAt_std b v i h _ _ (fun s k => rfl),
   featAt_std b v i h _ _ (fun s k => rfl),
   featAt_std b v i h _ _ (fun s k => rfl)⟩

/-- Witness for C3 at the concrete batch, entity "A", position 1
(a two-element window). -/
theorem rolling_std_matches_window_witness :
    1 < (entityRows "A" (featureCompute wbatch)).length ∧
    2 ≤ (windowSpec (entityCol wbatch "A" Row.speed_kmh) 1).length ∧
    (featAt wbatch "A" 1).speed_kmh_roll_std_10
      = Real.sqrt ((sampleVar (windowSpec (entityCol wbatch "A" Row.speed_kmh) 1) : ℚ) : ℝ) :=
  ⟨by rw [length_entityRows_input]; decide,
   by simp [windowSpec],
   ((rolling_std_matches_window wbatch "A" 1
      (by rw [length_entityRows_input]; decide)).1).1 (by simp [windowSpec])⟩

/-! ## Claim C5: row count preservation -/

/-- C5: feature engineering preserves the row count exactly (only
columns are appended), so the pair returned by `run` has equal raw and
feature row counts. -/
theorem row_count_preserved (b : List Row) :
    (featureCompute b).length = b.length ∧ (runCounts b).2 = (runCounts b).1 :=
  ⟨length_featureCompute b, length_featureCompute b⟩

/-! ## Claim C1: stable deterministic ordering -/

/-- Rows whose `(vin, timestamp)` keys are equal compare `rowLE` in both
directions. -/
theorem rowLE_of_eq_key (a c : Row) (hv : a.vin = c.vin)
    (ht : a.timestamp = c.timestamp) : rowLE a c = true := by
  simp only [rowLE, decide_eq_true_eq, keyLe]
  exact Or.inr ⟨hv, le_of_eq ht⟩

/-- The sorted frame's rows with one fixed `(vin, timestamp)` key are
exactly the input's rows with that key, in the input's order: the sort
is stable. -/
theorem sortStep_stable (b : List Row) (v : String) (t : ℚ) :
    (sortStep b).filter (fun r => r.vin == v && r.timestamp == t)
      = b.filter (fun r => r.vin == v && r.timestamp == t) := by
  have hpw : (b.filter (fun r => r.vin == v && r.timestamp == t)).Pairwise
      (fun a c => rowLE a c = true) := by
    apply List.pairwise_of_forall_mem_list
    intro a ha c hc
    rw [List.mem_filter] at ha hc
    have ha2 := ha.2
    have hc2 := hc.2
    simp only [Bool.and_eq_true, beq_iff_eq] at ha2 hc2
    exact rowLE_of_eq_key a c (ha2.1.trans hc2.1.symm) (ha2.2.trans hc2.2.symm)
  have hsub : (b.filter (fun r => r.vin == v && r.timestamp == t)).Sublist (sortStep b) :=
    List.sublist_mergeSort rowLE_trans rowLE_total hpw (List.filter_sublist b)
  have hsub2 : ((b.filter (fun r => r.vin == v && r.timestamp == t)).filter
        (fun r => r.vin == v && r.timestamp == t)).Sublist
      ((sortStep b).filter (fun r => r.vin == v && r.timestamp == t)) :=
    List.Sublist.filter _ hsub
  rw [List.filter_filter] at hsub2
  have hself : (b.filter (fun r => (r.vin == v && r.timestamp == t) &&
      (r.vin == v && r.timestamp == t))) = b.filter (fun r => r.vin == v && r.timestamp == t) := by
    apply List.filter_congr
    intro x _
    rw [Bool.and_self]
  rw [hself] at hsub2
  have hlen : ((sortStep b).filter (fun r => r.vin == v && r.timestamp == t)).length
      = (b.filter (fun r => r.vin == v && r.timestamp == t)).length :=
    (List.Perm.filter _ (List.mergeSort_perm b rowLE)).length_eq
  exact (hsub2.eq_of_length hlen.symm).symm

/-- C1: for every validated batch the engineered output is ordered
ascending by `(vin, timestamp)`, rows with equal keys appear in their
original input order (the reordering is a stable sort), and the output's
base rows are a permutation of the input (deterministically: the output
is a function of the input). -/
theorem feature_output_sorted_stable (b : List Row) :
    ((featureCompute b).map FeatRow.base).Pairwise keyLe ∧
    (∀ (v : String) (t : ℚ),
      ((featureCompute b).filter
          (fun fr => fr.base.vin == v && fr.base.timestamp == t)).map FeatRow.base
        = b.filter (fun r => r.vin == v && r.timestamp == t)) ∧
    ((featureCompute b).map FeatRow.base).Perm b := by
  refine ⟨?_, ?_, ?_⟩
  · rw [featureCompute_map_base]
    have hs := List.sorted_mergeSort rowLE_trans rowLE_total b
    exact hs.imp (fun hab => by simpa [rowLE, decide_eq_true_eq] using hab)
  · intro v t
    have hpred : (fun fr : FeatRow => fr.base.vin == v && fr.base.timestamp == t)
        = ((fun r : Row => r.vin == v && r.timestamp == t) ∘ FeatRow.base) := rfl
    rw [hpred, ← List.filter_map, featureCompute_map_base, sortStep_stable]
  · rw [featureCompute_map_base]
    exact List.mergeSort_perm b rowLE

/-! ## Raw level: schema validation and dtype coercion (`etl.py` lines 37-48) -/

/-- The ten required columns (`RAW_COLUMNS_REQUIRED`, lines 9-12). -/
def RAW_COLUMNS_REQUIRED : List String :=
  ["timestamp", "vin", "speed_kmh", "soc_pct", "battery_temp_c", "motor_current_a",
   "inverter_temp_c", "ambient_temp_c", "tire_wear_pct", "brake_wear_pct"]

/-- The errors the pipeline can raise: a schema error naming the missing
columns (line 40) or a type-coercion error naming the offending column
(`pd.to_numeric(..., errors="raise")`, line 46). -/
inductive EtlError where
  | schema (missing : List String)
  | coercion (col : String)
  deriving DecidableEq

/-- Line 38: `missing = [c for c in RAW_COLUMNS_REQUIRED if c not in cols]`. -/
def missingColumns (cols : List String) : List String :=
  RAW_COLUMNS_REQUIRED.filter (fun c => decide (c ∉ cols))

/-- Lines 37-40, `_validate_required_columns`: raise an error naming
every missing required column, else pass. -/
def validate_required_columns (cols : List String) : Except EtlError Unit :=
  if missingColumns cols = [] then Except.ok () else Except.error (.schema (missingColumns cols))

/-- A cell of a raw frame: pandas holds either a number or a string in
an object column. -/
inductive Value where
  | num (q : ℚ)
  | str (s : String)
  deriving DecidableEq

instance : Inhabited Value := ⟨.num 0⟩

/-- The value of a decimal digit character. -/
def digitVal (c : Char) : Option Nat :=
  if '0' ≤ c ∧ c ≤ '9' then some (c.toNat - '0'.toNat) else none

/-- A non-empty all-digit character list as a number. -/
def parseNatChars (cs : List Char) : Option Nat :=
  if cs.isEmpty then none
  else cs.foldl (fun acc c => match acc, digitVal c with
    | some a, some d => some (10*a + d)
    | _, _ => none) (some 0)

/-- An optionally-signed integer literal. -/
def strToInt (s : String) : Option Int :=
  match s.data with
  | '-' :: rest => (parseNatChars rest).map (fun n => -(n : Int))
  | cs => (parseNatChars cs).map (fun n => (n : Int))

/-- Model of `pd.to_numeric(..., errors="raise")` on one cell: numbers
pass through, numeric-looking strings parse (modelled as integer
literals), anything else is a coercion failure. -/
def to_numeric : Value → Option ℚ
  | .num q => some q
  | .str s => (strToInt s).map (fun i => (i : ℚ))

/-- Model of `astype(str)` on one cell. -/
def valueToStr : Value → String
  | .num q => toString q
  | .str s => s

/-- A raw record as `feature_engineer` receives it from `load_csv`: the
timestamp already parsed (line 34), all other columns untyped cells. -/
structure PreRow where
  timestamp : ℚ
  vin : Value
  speed_kmh : Value
  soc_pct : Value
  battery_temp_c : Value
  motor_current_a : Value
  inverter_temp_c : Value
  ambient_temp_c : Value
  tire_wear_pct : Value
  brake_wear_pct : Value
  deriving DecidableEq, Inhabited

/-- Line 44: `numeric_cols = [c for c in RAW_COLUMNS_REQUIRED if c not in
("timestamp","vin")]`, each with its accessor. -/
def numericCols : List (String × (PreRow → Value)) :=
  [("speed_kmh", PreRow.speed_kmh), ("soc_pct", PreRow.soc_pct),
   ("battery_temp_c", PreRow.battery_temp_c), ("motor_current_a", PreRow.motor_current_a),
   ("inverter_temp_c", PreRow.inverter_temp_c), ("ambient_temp_c", PreRow.ambient_temp_c),
   ("tire_wear_pct", PreRow.tire_wear_pct), ("brake_wear_pct", PreRow.brake_wear_pct)]

/-- The typed record of a raw record all of whose numeric cells coerce
(used only on that success path). -/
def typedRowOf (r : PreRow) : Row :=
  { timestamp := r.timestamp
  , vin := valueToStr r.vin
  , speed_kmh := (to_numeric r.speed_kmh).getD 0
  , soc_pct := (to_numeric r.soc_pct).getD 0
  , battery_temp_c := (to_numeric r.battery_temp_c).getD 0
  , motor_current_a := (to_numeric r.motor_current_a).getD 0
  , inverter_temp_c := (to_numeric r.inverter_temp_c).getD 0
  , ambient_temp_c := (to_numeric r.ambient_temp_c).getD 0
  , tire_wear_pct := (to_numeric r.tire_wear_pct).getD 0
  , brake_wear_pct := (to_numeric r.brake_wear_pct).getD 0 }

/-- Lines 42-48, `_coerce_dtypes`: walk the numeric columns in order;
the first column containing a cell that cannot be coerced raises a
coercion error naming it; otherwise every cell is coerced and `vin` is
cast to string. -/
def coerceDtypes (rows : List PreRow) : Except EtlError (List Row) :=
  match numericCols.find? (fun cf => rows.any (fun r => (to_numeric (cf.2 r)).isNone)) with
  | some cf => Except.error (.coercion cf.1)
  | none => Except.ok (rows.map typedRowOf)

/-- Lines 52-89, `feature_engineer` as a value-level function on the raw
batch: coerce dtypes (failing fast on a bad cell), then sort and add the
derived columns.  It never re-runs schema validation. -/
noncomputable def feature_engineer (rows : List PreRow) : Except EtlError (List FeatRow) :=
  (coerceDtypes rows).map featureCompute

/-! ## Claim C6: validation enumerates every missing column -/

/-- C6: a batch whose schema misses required columns is rejected with an
error naming exactly the missing columns (all of them, not only the
first); a schema containing all required columns passes this check. -/
theorem validation_names_all_missing (cols : List String) :
    ((∃ c ∈ RAW_COLUMNS_REQUIRED, c ∉ cols) →
      validate_required_columns cols = Except.error (.schema (missingColumns cols)) ∧
      (∀ c ∈ RAW_COLUMNS_REQUIRED, c ∉ cols → c ∈ missingColumns cols) ∧
      (∀ c ∈ missingColumns cols, c ∈ RAW_COLUMNS_REQUIRED ∧ c ∉ cols)) ∧
    ((∀ c ∈ RAW_COLUMNS_REQUIRED, c ∈ cols) →
      validate_required_columns cols = Except.ok ()) := by
  constructor
  · rintro ⟨c, hcR, hcN⟩
    have hmem : c ∈ missingColumns cols := by
      unfold missingColumns
      rw [List.mem_filter]
      exact ⟨hcR, by simpa using hcN⟩
    have hne : missingColumns cols ≠ [] := by
      intro hnil
      rw [hnil] at hmem
      simp at hmem
    refine ⟨?_, ?_, ?_⟩
    · unfold validate_required_columns
      rw [if_neg hne]
    · intro d hdR hdN
      unfold missingColumns
      rw [List.mem_filter]
      exact ⟨hdR, by simpa using hdN⟩
    · intro d hd
      unfold missingColumns at hd
      rw [List.mem_filter] at hd
      exact ⟨hd.1, by simpa using hd.2⟩
  · intro hall
    have hnil : missingColumns cols = [] := by
      unfold missingColumns
      rw [List.filter_eq_nil]
      intro a ha
      simpa using hall a ha
    unfold validate_required_columns
    rw [if_pos hnil]

/-- A schema missing both "vin" and "soc_pct". -/
def wcols : List String :=
  ["timestamp", "speed_kmh", "battery_temp_c", "motor_current_a",
   "inverter_temp_c", "ambient_temp_c", "tire_wear_pct", "brake_wear_pct"]

/-- Witness for C6: with two required columns absent, validation fails
and the error names both of them. -/
theorem validation_names_all_missing_witness :
    validate_required_columns wcols = Except.error (.schema (missingColumns wcols)) ∧
    "vin" ∈ missingColumns wcols ∧ "soc_pct" ∈ missingColumns wcols :=
  have h := (validation_names_all_missing wcols).1 ⟨"vin", by decide, by decide⟩
  ⟨h.1, h.2.1 "vin" (by decide) (by decide), h.2.1 "soc_pct" (by decide) (by decide)⟩

/-! ## Claim C7: feature engineering fails fast on bad cells -/

/-- C7: `feature_engineer` never raises a schema (re-validation) error,
and on any batch containing a cell of a declared-numeric column that
cannot be coerced it fails with a coercion error naming a numeric
column, instead of completing with NaN-like derived values. -/
theorem feature_engineer_fail_fast (rows : List PreRow) :
    (∀ m, feature_engineer rows ≠ Except.error (.schema m)) ∧
    ((∃ r ∈ rows, ∃ cf ∈ numericCols, to_numeric (cf.2 r) = none) →
      ∃ c, feature_engineer rows = Except.error (.coercion c) ∧
        c ∈ numericCols.map Prod.fst) := by
  constructor
  · intro m
    unfold feature_engineer coerceDtypes
    cases hf : numericCols.find? (fun cf => rows.any (fun r => (to_numeric (cf.2 r)).isNone)) with
    | none => simp [Except.map]
    | some cf => simp [Except.map]
  · rintro ⟨r, hr, cf, hcf, hnone⟩
    cases hf : numericCols.find? (fun cf => rows.any (fun r => (to_numeric (cf.2 r)).isNone)) with
    | none =>
      exfalso
      have hall := List.find?_eq_none.mp hf cf hcf
      apply hall
      rw [List.any_eq_true]
      exact ⟨r, hr, by simp [hnone]⟩
    | some cf' =>
      refine ⟨cf'.1, ?_, ?_⟩
      · unfold feature_engineer coerceDtypes
        rw [hf]
        rfl
      · exact List.mem_map.mpr ⟨cf', List.mem_of_find?_eq_some hf, rfl⟩

/-- A raw record whose `speed_kmh` cell is a non-numeric string. -/
def wbadrow : PreRow :=
  { timestamp := 0, vin := .str "EV1", speed_kmh := .str "fast", soc_pct := .num 90
  , battery_temp_c := .num 25, motor_current_a := .num 100, inverter_temp_c := .num 20
  , ambient_temp_c := .num 20, tire_wear_pct := .num 99, brake_wear_pct := .num 98 }

/-- Witness for C7 at a concrete one-row batch with a non-coercible
numeric cell. -/
theorem feature_engineer_fail_fast_witness :
    feature_engineer [wbadrow] ≠ Except.error (.schema ["vin"]) ∧
    ∃ c, feature_engineer [wbadrow] = Except.error (.coercion c) ∧
      c ∈ numericCols.map Prod.fst :=
  ⟨(feature_engineer_fail_fast [wbadrow]).1 ["vin"],
   (feature_engineer_fail_fast [wbadrow]).2
     ⟨wbadrow, by decide, ("speed_kmh", PreRow.speed_kmh), by simp [numericCols], by decide⟩⟩

/-! ## Claim C10: `feature_engineer` does not mutate its argument

Python DataFrames are heap objects: `df.copy()` allocates, column
assignment (`df[c] = ...`) mutates in place, `sort_values` returns a
fresh frame.  The heap is modelled explicitly so that the frame property
"the caller's object is unchanged" is a statement, not a tautology of a
pure embedding. -/

/-- A DataFrame object's contents at one of the stages the pipeline
produces: raw (object columns), dtype-coerced, or with derived columns. -/
inductive Frame where
  | pre (rows : List PreRow)
  | typed (rows : List Row)
  | feat (rows : List FeatRow)

instance : Inhabited Frame := ⟨.pre []⟩

/-- The heap of live DataFrame objects; a reference is an index. -/
abbrev Heap := List Frame

/-- Dereference. -/
def readRef (h : Heap) (r : Nat) : Frame := h.getD r default

/-- In-place mutation of the object behind a reference. -/
def writeRef (h : Heap) (r : Nat) (f : Frame) : Heap := h.set r f

/-- Lines 52-89 of `etl.py` at the object level, for a caller-owned
frame `r`.  `df = df.copy()` (line 57) allocates a fresh object at
index `h.length` holding the caller's contents; `_coerce_dtypes`
(line 58) assigns columns of that copy in place; `df.sort_values(...)`
(line 59) returns another fresh object, at index `h.length + 1`, to
which `df` is rebound; the derived-column assignments (lines 61-87)
mutate that object in place.  The result is the reference to the final
frame.  A coercion failure aborts ("raise") after the copy. -/
noncomputable def feature_engineer_heap (h : Heap) (r : Nat) : Heap × Except EtlError Nat :=
  match readRef h r with
  | .pre rows =>
    match coerceDtypes rows with
    | .error e => (h ++ [.pre rows], .error e)
    | .ok typed =>
      (writeRef ((writeRef (h ++ [.pre rows]) h.length (.typed typed))
          ++ [.typed (sortStep typed)])
        (h.length + 1) (.feat (deriveCols (sortStep typed))), .ok (h.length + 1))
  | .typed rows =>
    (writeRef ((writeRef (h ++ [.typed rows]) h.length (.typed rows))
        ++ [.typed (sortStep rows)])
      (h.length + 1) (.feat (deriveCols (sortStep rows))), .ok (h.length + 1))
  | .feat rows =>
    (writeRef ((writeRef (h ++ [.feat rows]) h.length (.feat rows))
        ++ [.typed (sortStep (rows.map FeatRow.base))])
      (h.length + 1) (.feat (deriveCols (sortStep (rows.map FeatRow.base)))), .ok (h.length + 1))

theorem readRef_append (h : Heap) (f : Frame) (r : Nat) (hr : r < h.length) :
    readRef (h ++ [f]) r = readRef h r := by
  unfold readRef
  exact List.getD_append _ _ _ _ hr

theorem readRef_write_ne (h : Heap) (i r : Nat) (f : Frame) (hne : i ≠ r) :
    readRef (writeRef h i f) r = readRef h r := by
  unfold readRef writeRef
  rw [List.getD_eq_getElem?_getD, List.getD_eq_getElem?_getD, List.getElem?_set_ne hne]

theorem length_writeRef (h : Heap) (i : Nat) (f : Frame) :
    (writeRef h i f).length = h.length := by
  simp [writeRef]

/-- The full write-read chain of the success paths leaves every caller
reference untouched. -/
theorem readRef_chain (h : Heap) (c m1 d m2 : Frame) (r : Nat) (hr : r < h.length) :
    readRef (writeRef ((writeRef (h ++ [c]) h.length m1) ++ [d]) (h.length + 1) m2) r
      = readRef h r := by
  rw [readRef_write_ne _ _ _ _ (by omega),
    readRef_append _ _ _ (by rw [length_writeRef]; simp; omega),
    readRef_write_ne _ _ _ _ (by omega),
    readRef_append _ _ _ hr]

/-- C10: `feature_engineer` does not mutate its argument.  After the
call the caller's frame holds exactly what it held before: all
coercion, sorting and column additions happen on freshly allocated
objects, and the returned reference is one of those fresh objects. -/
theorem feature_engineer_not_mutating (h : Heap) (r : Nat) (hr : r < h.length) :
    readRef (feature_engineer_heap h r).1 r = readRef h r ∧
    (∀ res, (feature_engineer_heap h r).2 = Except.ok res → h.length ≤ res) := by
  unfold feature_engineer_heap
  cases hF : readRef h r with
  | pre rows =>
    dsimp only
    cases hC : coerceDtypes rows with
    | error e =>
      dsimp only
      refine ⟨?_, ?_⟩
      · rw [readRef_append _ _ _ hr, hF]
      · intro res hres
        exact absurd hres (by simp)
    | ok typed =>
      dsimp only
      refine ⟨?_, ?_⟩
      · rw [readRef_chain _ _ _ _ _ _ hr, hF]
      · intro res hres
        simp only [Except.ok.injEq] at hres
        omega
  | typed rows =>
    dsimp only
    refine ⟨?_, ?_⟩
    · rw [readRef_chain _ _ _ _ _ _ hr, hF]
    · intro res hres
      simp only [Except.ok.injEq] at hres
      omega
  | feat rows =>
    dsimp only
    refine ⟨?_, ?_⟩
    · rw [readRef_chain _ _ _ _ _ _ hr, hF]
    · intro res hres
      simp only [Except.ok.injEq] at hres
      omega

/-- Witness for C10: a one-frame heap. -/
theorem feature_engineer_not_mutating_witness :
    readRef (feature_engineer_heap [Frame.pre [wbadrow]] 0).1 0
      = readRef [Frame.pre [wbadrow]] 0 :=
  (feature_engineer_not_mutating [Frame.pre [wbadrow]] 0 (by decide)).1

/-! ## The telemetry generator (`generator.py`) -/

/-- Line 7: `_clamp(x, lo, hi) = max(lo, min(hi, x))`. -/
def _clamp (x lo hi : ℚ) : ℚ := max lo (min hi x)

/-- Lines 10-19: one vehicle's walk state, with the source's initial
values as defaults. -/
structure VehicleState where
  soc : ℚ := 100
  speed : ℚ := 0
  batt : ℚ := 25
  motor : ℚ := 10
  inverter : ℚ := 20
  ambient : ℚ := 20
  tire : ℚ := 100
  brake : ℚ := 100
  deriving DecidableEq, Inhabited

/-- The global pseudorandom state.  Python's `random` module is one
process-wide deterministic generator (a Mersenne Twister); it is
modelled by a linear congruential generator, which preserves the two
facts the program relies on: after `random.seed(s)` the stream is a
function of `s` alone, and `random.uniform a b` yields a value in
`[a, b]`. -/
structure RandState where
  val : Nat
  deriving DecidableEq

/-- One draw of the modelled global generator. -/
def randNext (g : RandState) : Nat × RandState :=
  ((1664525 * g.val + 1013904223) % 2^32, ⟨(1664525 * g.val + 1013904223) % 2^32⟩)

/-- `random.seed(seed)`: the global state becomes a function of the
seed alone. -/
def seedState (seed : Nat) : RandState := ⟨seed % 2^32⟩

/-- `random.uniform a b`: a value in `[a, b]` (for `a ≤ b`), consuming
one draw of the global generator. -/
def uniform (a b : ℚ) (g : RandState) : ℚ × RandState :=
  (a + (b - a) * (((randNext g).1 : ℚ) / 2^32), (randNext g).2)

/-- The floor of a rational as explicit integer division (so that it
evaluates by kernel reduction). -/
def floorQ (q : ℚ) : ℤ := q.num / (q.den : ℤ)

/-- Python's `round(x, 2)`: round to two decimal places (rounding to
the nearest representable; the tie-breaking rule is immaterial here). -/
def round2 (x : ℚ) : ℚ := ((floorQ (100 * x + 1/2) : ℤ) : ℚ) / 100

/-- The channel dict returned by `_step` (lines 48-57). -/
structure ChanVals where
  speed_kmh : ℚ
  soc_pct : ℚ
  battery_temp_c : ℚ
  motor_current_a : ℚ
  inverter_temp_c : ℚ
  ambient_temp_c : ℚ
  tire_wear_pct : ℚ
  brake_wear_pct : ℚ
  deriving DecidableEq

/-- `TelemetryGenerator._step` (lines 32-57) for one vehicle: the
bounded random walk (each update drawing from the global generator in
source order, later updates reading the just-updated speed) and the
rounded channel values. -/
def _step (s : VehicleState) (g : RandState) : VehicleState × ChanVals × RandState :=
  let u1 := uniform (-2) 3 g
  let speed := _clamp (s.speed + u1.1) 0 160
  let u2 := uniform (-2/100) (2/100) u1.2
  let soc := _clamp (s.soc - (7/10000) * speed + u2.1) 0 100
  let u3 := uniform (-3/10) (3/10) u2.2
  let batt := s.batt + (1/100) * speed + u3.1
  let u4 := uniform (-4/10) (4/10) u3.2
  let motor := s.motor + (15/1000) * speed + u4.1
  let u5 := uniform (-3/10) (3/10) u4.2
  let inverter := s.inverter + (12/1000) * speed + u5.1
  let u6 := uniform (2/100000) (8/100000) u5.2
  let tire := _clamp (s.tire - u6.1) 0 100
  let u7 := uniform (5/100000) (12/100000) u6.2
  let brake := _clamp (s.brake - u7.1) 0 100
  let u8 := uniform (-5/100) (5/100) u7.2
  let ambient := _clamp (s.ambient + u8.1) (-10) 45
  (⟨soc, speed, batt, motor, inverter, ambient, tire, brake⟩,
   ⟨round2 speed, round2 soc, round2 batt, round2 (100 + motor), round2 inverter,
    round2 ambient, round2 tire, round2 brake⟩,
   u8.2)

/-- The generator object's mutable vin-to-state map (`self.states`). -/
abbrev States := List (String × VehicleState)

/-- `self.states[vin]`. -/
def getState (st : States) (vin : String) : VehicleState :=
  ((st.find? (fun p => p.1 == vin)).map Prod.snd).getD default

/-- In-place update of one vehicle's state object. -/
def setState : States → String → VehicleState → States
  | [], _, _ => []
  | p :: rest, vin, sv => if p.1 == vin then (vin, sv) :: rest else p :: setState rest vin sv

/-- Lines 21-26: the generator's constructor arguments. -/
structure TelemetryGenerator where
  vins : List String
  hz : ℚ := 2
  seed : Nat := 42

/-- `__post_init__` (lines 28-30): seed the global generator — erasing
whatever state it had — and create one fresh `VehicleState` per vin. -/
def postInit (gen : TelemetryGenerator) (g : RandState) : States × RandState :=
  (gen.vins.map (fun v => (v, {})), seedState gen.seed)

/-- The inner loop of `stream_rows` (lines 63-65): one pass over
`vins` at time `t`, stepping each vehicle and yielding one record per
vin. -/
def stepVins : List String → States → ℚ → RandState → List Row × States × RandState
  | [], st, _, g => ([], st, g)
  | vin :: rest, st, t, g =>
    let r := _step (getState st vin) g
    let row : Row :=
      { timestamp := t, vin := vin
      , speed_kmh := r.2.1.speed_kmh, soc_pct := r.2.1.soc_pct
      , battery_temp_c := r.2.1.battery_temp_c, motor_current_a := r.2.1.motor_current_a
      , inverter_temp_c := r.2.1.inverter_temp_c, ambient_temp_c := r.2.1.ambient_temp_c
      , tire_wear_pct := r.2.1.tire_wear_pct, brake_wear_pct := r.2.1.brake_wear_pct }
    let out := stepVins rest (setState st vin r.1) t r.2.2
    (row :: out.1, out.2)

/-- `stream_rows` (lines 59-66): `n` time steps; at each step one record
per vin (round-robin), then time advances by `dt = 1/hz`. -/
def streamLoop (vins : List String) : Nat → States → ℚ → ℚ → RandState → List Row × States × RandState
  | 0, st, _, _, g => ([], st, g)
  | n+1, st, t, dt, g =>
    let one := stepVins vins st t g
    let rest := streamLoop vins n one.2.1 (t + dt) dt one.2.2
    (one.1 ++ rest.1, rest.2)

/-- `stream_rows` on a constructed generator. -/
def stream_rows (gen : TelemetryGenerator) (st : States) (rows : Nat) (start : ℚ)
    (g : RandState) : List Row × States × RandState :=
  streamLoop gen.vins rows st start (1 / gen.hz) g

/-- One complete generator run: construct
`TelemetryGenerator(vins, hz, seed)` — whose `__post_init__` seeds the
global generator — then stream `rows` time steps from `start`.  `g0` is
whatever the process-wide random state was before the run. -/
def generatorRun (vins : List String) (hz : ℚ) (seed : Nat) (rows : Nat) (start : ℚ)
    (g0 : RandState) : List Row :=
  let gen : TelemetryGenerator := { vins := vins, hz := hz, seed := seed }
  let init := postInit gen g0
  (stream_rows gen init.1 rows start init.2).1

/-! ## Claim C8: generator determinism -/

/-- C8: two generator runs constructed with identical
`(entity_ids, seed, sample_rate_hz)` and streamed with identical
`(row_count, start_time)` produce identical output sequences — same
rows, same values, same order — whatever the global random state was
before each run, because `__post_init__` re-seeds the global generator
from the seed alone. -/
theorem generator_deterministic (vins : List String) (hz : ℚ) (seed : Nat)
    (rows : Nat) (start : ℚ) (g0 g1 : RandState) :
    generatorRun vins hz seed rows start g0 = generatorRun vins hz seed rows start g1 := rfl

/-! ## Claim C9: generator bounds -/

theorem floorQ_eq (q : ℚ) : floorQ q = ⌊q⌋ := Rat.floor_def.symm

theorem round2_mem_0_100 (x : ℚ) (h0 : 0 ≤ x) (h100 : x ≤ 100) :
    0 ≤ round2 x ∧ round2 x ≤ 100 := by
  unfold round2
  rw [floorQ_eq]
  have h1 : (0:ℤ) ≤ ⌊100 * x + 1/2⌋ := by
    have hm : ⌊(0:ℚ)⌋ ≤ ⌊100 * x + 1/2⌋ := Int.floor_mono (by linarith)
    simpa using hm
  have h2 : ⌊100 * x + 1/2⌋ ≤ 10000 := by
    have hm : ⌊100 * x + 1/2⌋ ≤ ⌊(10000:ℚ) + 1/2⌋ := Int.floor_mono (by linarith)
    have he2 : ⌊(10000:ℚ) + 1/2⌋ = 10000 := by
      rw [Int.floor_eq_iff]
      norm_num
    omega
  constructor
  · exact div_nonneg (by exact_mod_cast h1) (by norm_num)
  · rw [div_le_iff (by norm_num : (0:ℚ) < 100)]
    have : ((⌊100 * x + 1/2⌋ : ℤ) : ℚ) ≤ 10000 := by exact_mod_cast h2
    linarith

theorem _clamp_le (x lo hi : ℚ) (h : lo ≤ hi) : _clamp x lo hi ≤ hi := by
  unfold _clamp
  exact max_le h (min_le_left _ _)

theorem _clamp_ge (x lo hi : ℚ) : lo ≤ _clamp x lo hi := le_max_left _ _

/-- A generated record's state-of-charge and wear channels stay in
`[0, 100]`. -/
def rowBounded (r : Row) : Prop :=
  (0 ≤ r.soc_pct ∧ r.soc_pct ≤ 100) ∧
  (0 ≤ r.tire_wear_pct ∧ r.tire_wear_pct ≤ 100) ∧
  (0 ≤ r.brake_wear_pct ∧ r.brake_wear_pct ≤ 100)

/-- Every `_step` emits clamped-and-rounded SOC and wear values,
whatever the incoming state and random state. -/
theorem _step_bounds (s : VehicleState) (g : RandState) :
    (0 ≤ (_step s g).2.1.soc_pct ∧ (_step s g).2.1.soc_pct ≤ 100) ∧
    (0 ≤ (_step s g).2.1.tire_wear_pct ∧ (_step s g).2.1.tire_wear_pct ≤ 100) ∧
    (0 ≤ (_step s g).2.1.brake_wear_pct ∧ (_step s g).2.1.brake_wear_pct ≤ 100) := by
  unfold _step
  dsimp only
  refine ⟨?_, ?_, ?_⟩ <;>
    exact round2_mem_0_100 _ (_clamp_ge _ _ _) (_clamp_le _ _ _ (by norm_num))

theorem stepVins_bounds : ∀ (vins : List String) (st : States) (t : ℚ) (g : RandState),
    ∀ r ∈ (stepVins vins st t g).1, rowBounded r := by
  intro vins
  induction vins with
  | nil =>
    intro st t g r hr
    simp [stepVins] at hr
  | cons vin rest ih =>
    intro st t g r hr
    rw [stepVins] at hr
    rcases List.mem_cons.mp hr with h | h
    · subst h
      exact _step_bounds (getState st vin) g
    · exact ih _ _ _ r h

theorem streamLoop_bounds : ∀ (n : Nat) (vins : List String) (st : States) (t dt : ℚ)
    (g : RandState), ∀ r ∈ (streamLoop vins n st t dt g).1, rowBounded r := by
  intro n
  induction n with
  | zero =>
    intro vins st t dt g r hr
    simp [streamLoop] at hr
  | succ n ih =>
    intro vins st t dt g r hr
    rw [streamLoop] at hr
    rcases List.mem_append.mp hr with h | h
    · exact stepVins_bounds vins st t g r h
    · exact ih _ _ _ _ _ r h

/-- C9: for every generator run — any entities, sample rate, seed, row
count, start time and prior global random state — every emitted row has
`soc_pct`, `tire_wear_pct` and `brake_wear_pct` inside `[0, 100]`: the
clamp applied on every random-walk step preserves the bounds from the
initial state onward. -/
theorem generator_bounds (vins : List String) (hz : ℚ) (seed : Nat) (rows : Nat)
    (start : ℚ) (g0 : RandState) :
    ∀ r ∈ generatorRun vins hz seed rows start g0,
      (0 ≤ r.soc_pct ∧ r.soc_pct ≤ 100) ∧
      (0 ≤ r.tire_wear_pct ∧ r.tire_wear_pct ≤ 100) ∧
      (0 ≤ r.brake_wear_pct ∧ r.brake_wear_pct ≤ 100) := by
  intro r hr
  exact streamLoop_bounds rows vins _ start (1/hz) (seedState seed) r hr

theorem headD_mem {α : Type} [Inhabited α] (l : List α) (hne : l ≠ []) :
    l.headD default ∈ l := by
  cases l with
  | nil => exact absurd rfl hne
  | cons a t => exact List.mem_cons_self a t

theorem generator_run_ne_nil : generatorRun ["A"] 2 42 1 0 ⟨0⟩ ≠ [] := by
  simp [generatorRun, stream_rows, streamLoop, stepVins, postInit]

/-- Witness for C9: the single row of a one-entity, one-step run. -/
theorem generator_bounds_witness :
    (0 ≤ ((generatorRun ["A"] 2 42 1 0 ⟨0⟩).headD default).soc_pct ∧
      ((generatorRun ["A"] 2 42 1 0 ⟨0⟩).headD default).soc_pct ≤ 100) ∧
    (0 ≤ ((generatorRun ["A"] 2 42 1 0 ⟨0⟩).headD default).tire_wear_pct ∧
      ((generatorRun ["A"] 2 42 1 0 ⟨0⟩).headD default).tire_wear_pct ≤ 100) ∧
    (0 ≤ ((generatorRun ["A"] 2 42 1 0 ⟨0⟩).headD default).brake_wear_pct ∧
      ((generatorRun ["A"] 2 42 1 0 ⟨0⟩).headD default).brake_wear_pct ≤ 100) :=
  generator_bounds ["A"] 2 42 1 0 ⟨0⟩ _ (headD_mem _ generator_run_ne_nil)
